import Mathlib

/-!
Verification of the image recompression engine (`image_compressor.py`).

The Python module is shallowly embedded below: pure helpers become Lean
functions over `ℤ`/`ℕ`/`ℚ` (Python's exact int and float arithmetic on the
small values involved); PIL images become a structure carrying a pixel mode
and the list of pixels in canonical RGBA form; PIL library calls whose
behaviour the engine does not control (adaptive quantization, resampling)
are passed in as function parameters, with `Option` modelling the
possibility that the call raises; the try/except structure of `compress`
becomes explicit `Except` plumbing.
-/

namespace ImageCompressor

/-- The three image presets ('自定义' / '压缩优先' / '清晰优先' in the source;
any unrecognized string is coerced to `custom` by `_get_image_preset`). -/
inductive Preset
  | custom
  | compressionFirst
  | clarityFirst
deriving DecidableEq, Repr

/-- Pixel modes of the decoded raster (PIL `L`, `LA`, `RGB`, `RGBA`, `P`). -/
inductive Mode
  | gray
  | grayAlpha
  | rgb
  | rgba
  | indexed
deriving DecidableEq, Repr

/-- One pixel in canonical RGBA interpretation (each channel 0–255). -/
structure Pixel where
  r : ℕ
  g : ℕ
  b : ℕ
  a : ℕ
deriving DecidableEq, Repr

/-- A decoded image: pixel mode, dimensions, pixel data (row-major, in
canonical RGBA interpretation; images whose mode carries no alpha store
`a = 255`), and whether `'transparency' in img.info` holds. -/
structure Img where
  mode : Mode
  width : ℤ
  height : ℤ
  pixels : List Pixel
  infoTransparency : Bool
deriving DecidableEq, Repr

/-- Python `int(x)` on a float/rational: truncation toward zero. -/
def pyInt (q : ℚ) : ℤ := if q < 0 then -(⌊-q⌋) else ⌊q⌋

/-- Python 3 `round(x)` (one-argument): round half to even. -/
def pyRound (q : ℚ) : ℤ :=
  if q - (⌊q⌋ : ℚ) < 1/2 then ⌊q⌋
  else if 1/2 < q - (⌊q⌋ : ℚ) then ⌊q⌋ + 1
  else if ⌊q⌋ % 2 = 0 then ⌊q⌋ else ⌊q⌋ + 1

/-- `_clamp_int(value, min_value, max_value)`: Python `int(value)` either
succeeds (`some v`) or raises (`none`, in which case `value_int = min_value`),
then the result is clamped into `[min_value, max_value]`. -/
def clampInt (conv : Option ℤ) (minValue maxValue : ℤ) : ℤ :=
  let valueInt := match conv with
    | some v => v
    | none => minValue
  max minValue (min maxValue valueInt)

/-- The quality actually used by `compress` (line 50):
`_clamp_int(config.get('photo_quality', 85), 0, 100)`. -/
def effectivePhotoQuality (conv : Option ℤ) : ℤ := clampInt conv 0 100

/-- Quality adjustment of `_save_jpeg`: '压缩优先' (CompressionFirst) caps at
75, '清晰优先' (ClarityFirst) floors at 92, otherwise (Custom) raw quality. -/
def saveJpegQuality (photoQuality : ℤ) : Preset → ℤ
  | .compressionFirst => min photoQuality 75
  | .clarityFirst => max photoQuality 92
  | .custom => photoQuality

/-- Quality adjustment of `_save_webp`: cap 70 / floor 90. -/
def saveWebpQuality (photoQuality : ℤ) : Preset → ℤ
  | .compressionFirst => min photoQuality 70
  | .clarityFirst => max photoQuality 90
  | .custom => photoQuality

/-- Whether the image's mode carries an alpha channel once interpreted
(RGBA, LA, or any mode with a `'transparency'` info entry). -/
def modeHasAlpha (img : Img) : Bool :=
  img.mode = .rgba || img.mode = .grayAlpha || img.infoTransparency

/-- PIL `img.convert('RGBA')` over the canonical-quad model: the stored
pixels already are the RGBA interpretation, so conversion relabels the mode;
a mode without alpha contributes a fully opaque alpha channel. -/
def convertRGBA (img : Img) : Img :=
  if modeHasAlpha img then { img with mode := .rgba }
  else { img with mode := .rgba, pixels := img.pixels.map (fun p => { p with a := 255 }) }

/-- PIL `img.convert('RGB')`: drop alpha, keep the RGB channels. -/
def convertRGB (img : Img) : Img :=
  { img with mode := .rgb, pixels := img.pixels.map (fun p => { p with a := 255 }) }

/-- Per-pixel "over" compositing of an RGBA pixel onto opaque white, as done
by `Image.alpha_composite(white_background, rgba)`: the destination is fully
opaque, so the output alpha is 255 and each colour channel is the standard
blend `(c*a + 255*(255-a)) / 255`. -/
def alphaCompositeWhite (p : Pixel) : Pixel :=
  { r := (p.r * p.a + 255 * (255 - p.a)) / 255
    g := (p.g * p.a + 255 * (255 - p.a)) / 255
    b := (p.b * p.a + 255 * (255 - p.a)) / 255
    a := 255 }

/-- The alpha-range test of `_convert_for_png24` (line 156): mode in
`['RGBA', 'LA']`, or `P` with a transparency entry, or any mode with a
transparency entry. -/
def requiresAlphaHandling (img : Img) : Bool :=
  img.mode = .rgba || img.mode = .grayAlpha ||
    (img.mode = .indexed && img.infoTransparency) || img.infoTransparency

/-- `alpha.getextrema()` on the list of alpha values: `none` models the
exception on an empty channel, otherwise `(min, max)`. -/
def alphaExtrema : List ℕ → Option (ℕ × ℕ)
  | [] => none
  | x :: xs => some (xs.foldl min x, xs.foldl max x)

/-- `_convert_for_png24`: RGB passes through; a mode with transparency is
converted to RGBA, and if its alpha channel is uniformly 255 it is dropped
to RGB directly, otherwise the image is composited over opaque white and
dropped to RGB; any other mode converts directly to RGB.  The
`try/except` around `getextrema` defaults to `(0, 255)`. -/
def convertForPng24 (img : Img) : Img :=
  if img.mode = .rgb then img
  else if requiresAlphaHandling img then
    let rgba := convertRGBA img
    let extrema := match alphaExtrema (rgba.pixels.map Pixel.a) with
      | some e => e
      | none => (0, 255)
    if extrema.1 = 255 ∧ extrema.2 = 255 then convertRGB rgba
    else convertRGB { rgba with pixels := rgba.pixels.map alphaCompositeWhite }
  else convertRGB img

/-- `_convert_for_jpeg`: RGB passes through; RGBA / LA / P-with-transparency
is pasted onto a white RGB background through its alpha mask; any other mode
converts directly to RGB.  `background.paste(rgba, mask=alpha)` blends each
pixel onto white exactly as over-compositing does. -/
def convertForJpeg (img : Img) : Img :=
  if img.mode = .rgb then img
  else if img.mode = .rgba || img.mode = .grayAlpha ||
      (img.mode = .indexed && img.infoTransparency) then
    { mode := .rgb, width := img.width, height := img.height
      pixels := (convertRGBA img).pixels.map alphaCompositeWhite
      infoTransparency := img.infoTransparency }
  else convertRGB img

/-- `_save_jpeg`: preset-adjusted quality plus JPEG mode conversion; the
encoder call itself is external, so the function's observable content is the
pair (quality, image handed to the encoder). -/
def saveJpeg (img : Img) (photoQuality : ℤ) (preset : Preset) : ℤ × Img :=
  (saveJpegQuality photoQuality preset, convertForJpeg img)

/-- PIL dither / quantization method constants. -/
def ditherNONE : ℤ := 0
/-- PIL `Image.FLOYDSTEINBERG`. -/
def ditherFLOYDSTEINBERG : ℤ := 3
/-- PIL `Image.MEDIANCUT`. -/
def methodMEDIANCUT : ℤ := 0
/-- PIL `Image.FASTOCTREE`. -/
def methodFASTOCTREE : ℤ := 2

/-- The two PIL quantization primitives used by `_maybe_quantize_png`, as
external parameters: `convertAdaptive img colors dither` models
`img.convert('P', palette=ADAPTIVE, colors=colors, dither=dither)` and
`quantizeMethod img colors method dither` models
`img.quantize(colors=colors, method=method, dither=dither)`; `none` models
the call raising. -/
structure QuantOps where
  convertAdaptive : Img → ℤ → ℤ → Option Img
  quantizeMethod : Img → ℤ → ℤ → ℤ → Option Img

/-- `_maybe_quantize_png`: an image already in palette mode is returned
unchanged; otherwise it is coerced to RGB/RGBA, adaptive-palette conversion
is attempted, falling back to `quantize` with MEDIANCUT for RGB and
FASTOCTREE otherwise; if both raise, the (possibly coerced) image is
returned unchanged. -/
def maybeQuantizePng (ops : QuantOps) (img : Img) (colors : ℤ) (dither : ℤ) : Img :=
  if img.mode = .indexed then img
  else
    let base := if img.mode = .rgb ∨ img.mode = .rgba then img else convertRGBA img
    match ops.convertAdaptive base colors dither with
    | some quantized => quantized
    | none =>
      let method := if base.mode = .rgb then methodMEDIANCUT else methodFASTOCTREE
      match ops.quantizeMethod base colors method dither with
      | some quantized => quantized
      | none => base

/-- The target palette size of `_save_png`'s low-quality branch:
`colors = int(round(16 + (photo_quality / 70.0) * (256 - 16)))` then
`colors = max(16, min(256, colors))`. -/
def pngColors (photoQuality : ℤ) : ℤ :=
  let colors := pyRound (16 + ((photoQuality : ℚ) / 70) * (256 - 16))
  max 16 (min 256 colors)

/-- `_save_png`: ClarityFirst → level 6, image unchanged; CompressionFirst →
level 9, PNG-24 flatten; Custom → branch on quality: `>= 90` level 6
unchanged, `>= 70` level 9 unchanged, otherwise level 9 and quantization
attempt with `pngColors` colors and no dithering.  The observable content is
the pair (compress level, image handed to the encoder). -/
def savePng (ops : QuantOps) (img : Img) (photoQuality : ℤ) : Preset → ℤ × Img
  | .clarityFirst => (6, img)
  | .compressionFirst => (9, convertForPng24 img)
  | .custom =>
    if photoQuality ≥ 90 then (6, img)
    else if photoQuality ≥ 70 then (9, img)
    else (9, maybeQuantizePng ops img (pngColors photoQuality) ditherNONE)

/-- `_resize_if_needed`'s arithmetic: Python computes
`ratio = min(max_width / width, max_height / height)` with true division and
truncates `width * ratio`, `height * ratio` with `int(...)`. -/
def resizeDims (width height maxWidth maxHeight : ℤ) : ℤ × ℤ :=
  let ratio : ℚ := min ((maxWidth : ℚ) / (width : ℚ)) ((maxHeight : ℚ) / (height : ℚ))
  (pyInt ((width : ℚ) * ratio), pyInt ((height : ℚ) * ratio))

/-- `_resize_if_needed`: the image is returned unchanged unless
`width > max_width or height > max_height`, in which case it is resized (by
the external LANCZOS resampler) to the dimensions of `resizeDims`. -/
def resizeIfNeeded (resample : Img → ℤ → ℤ → Img) (img : Img)
    (maxWidth maxHeight : ℤ) : Img :=
  if maxWidth < img.width ∨ maxHeight < img.height then
    resample img (resizeDims img.width img.height maxWidth maxHeight).1
      (resizeDims img.width img.height maxWidth maxHeight).2
  else img

/-- Per-pixel contribution to `sum_abs` in `_compute_image_diff_stats`:
`abs(pa[0]-pb[0]) + abs(pa[1]-pb[1]) + abs(pa[2]-pb[2]) + abs(pa[3]-pb[3])`. -/
def pixelAbsDiffSum (pa pb : Pixel) : ℕ :=
  ((pa.r : ℤ) - pb.r).natAbs + ((pa.g : ℤ) - pb.g).natAbs +
    ((pa.b : ℤ) - pb.b).natAbs + ((pa.a : ℤ) - pb.a).natAbs

/-- Per-pixel high-difference test: some channel differs by more than 24. -/
def pixelHighDiff (pa pb : Pixel) : Bool :=
  decide (24 < ((pa.r : ℤ) - pb.r).natAbs) ||
    decide (24 < ((pa.g : ℤ) - pb.g).natAbs) ||
    decide (24 < ((pa.b : ℤ) - pb.b).natAbs) ||
    decide (24 < ((pa.a : ℤ) - pb.a).natAbs)

/-- `_compute_image_diff_stats`: over the first `min(len, len)` pixel pairs,
`mae = sum_abs / (total*4)` and `high_pct = high_count * 100 / total`;
`(0.0, 0.0)` when there are no pixels. -/
def computeImageDiffStats (dataA dataB : List Pixel) : ℚ × ℚ :=
  let total := min dataA.length dataB.length
  if total = 0 then (0, 0)
  else
    let pairs := dataA.zip dataB
    let sumAbs : ℕ := (pairs.map fun pr => pixelAbsDiffSum pr.1 pr.2).sum
    let highCount : ℕ := pairs.countP fun pr => pixelHighDiff pr.1 pr.2
    ((sumAbs : ℚ) / ((total : ℚ) * 4), (highCount : ℚ) * 100 / (total : ℚ))

/-- `_prepare_compare_images`: both images are coerced to RGBA, the
quantized image is NEAREST-resized to the original's size when they differ,
and both are BILINEAR-downsampled so neither dimension exceeds 256.  The two
resamplers are external PIL calls (`none` models a raised exception). -/
def prepareCompareImages (resizeNearest resizeBilinear : Img → ℤ → ℤ → Option Img)
    (originalImg png8Img : Img) : Option (Img × Img) :=
  let a := if originalImg.mode ≠ .rgba then convertRGBA originalImg else originalImg
  let b := if png8Img.mode ≠ .rgba then convertRGBA png8Img else png8Img
  do
    let b ← if (a.width, a.height) ≠ (b.width, b.height) then
        resizeNearest b a.width a.height
      else pure b
    if 256 < a.width ∨ 256 < a.height then
      let ratio : ℚ := min (256 / (a.width : ℚ)) (256 / (a.height : ℚ))
      let newWidth := max 1 (pyInt ((a.width : ℚ) * ratio))
      let newHeight := max 1 (pyInt ((a.height : ℚ) * ratio))
      let a2 ← resizeBilinear a newWidth newHeight
      let b2 ← resizeBilinear b newWidth newHeight
      pure (a2, b2)
    else
      pure (a, b)

/-- The quantization verdict dictionary of `_should_accept_png8`. -/
structure Decision where
  accept : Bool
  mae : ℚ
  highPct : ℚ
deriving DecidableEq, Repr

/-- The acceptance flag computation of `_should_accept_png8`: start from
`accept = True`, clear it if `mae > 6.0`, clear it if `high_pct > 2.0`. -/
def acceptFlag (mae highPct : ℚ) : Bool :=
  let accept := true
  let accept := if 6 < mae then false else accept
  let accept := if 2 < highPct then false else accept
  accept

/-- `_should_accept_png8`: prepare the pair, compute the diff stats, decide;
on any exception during the comparison (modelled by `prepareCompareImages`
returning `none`) the verdict is the sentinel
`{accept: False, mae: 999.0, high_pct: 100.0}`. -/
def shouldAcceptPng8 (resizeNearest resizeBilinear : Img → ℤ → ℤ → Option Img)
    (originalImg png8Img : Img) : Decision :=
  match prepareCompareImages resizeNearest resizeBilinear originalImg png8Img with
  | some (a, b) =>
    let stats := computeImageDiffStats a.pixels b.pixels
    { accept := acceptFlag stats.1 stats.2, mae := stats.1, highPct := stats.2 }
  | none => { accept := false, mae := 999, highPct := 100 }

/-- The exception classes that can escape the body of `compress` (all are
subclasses of `Exception`, so every one is caught by one of its three
`except` clauses). -/
inductive PyErr
  | fileNotFound
  | permissionError
  | osError
  | valueError
  | unidentifiedImage
  | decompressionBomb
  | unknown
deriving DecidableEq, Repr

/-- The inputs and external outcomes of one `compress(source, target)` call:
whether `_normalize_path(source)` returns a path, whether that path is a
regular file, whether `_normalize_path(dirname(target))` returns a path, the
outcome of the decode/resize/encode pipeline, and the outcome of the I/O
performed by the fallback `shutil.copy2` when the source file exists. -/
structure CompressEnv where
  normalizeSourceOk : Bool
  sourceIsFile : Bool
  normalizeTargetOk : Bool
  pipeline : Except PyErr Unit
  copyDiskOutcome : Except PyErr Unit
deriving Repr

/-- `shutil.copy2(source, target)`: copying a non-existent source raises
`FileNotFoundError` before the target is opened; otherwise the copy's own
I/O outcome decides. -/
def copy2 (sourceIsFile : Bool) (io : Except PyErr Unit) : Except PyErr Unit :=
  if sourceIsFile then io else .error .fileNotFound

/-- The `try` body of `compress`: validation raises `FileNotFoundError` when
the normalized source is missing or not a regular file and `ValueError` when
the target's directory fails to normalize; then the decode/resize/encode
pipeline runs and the body returns `True`. -/
def compressBody (env : CompressEnv) : Except PyErr Bool :=
  if ¬ (env.normalizeSourceOk = true ∧ env.sourceIsFile = true) then .error .fileNotFound
  else if ¬ env.normalizeTargetOk = true then .error .valueError
  else
    match env.pipeline with
    | .ok _ => .ok true
    | .error e => .error e

/-- What one `compress` call leaves behind: the returned value or raised
error, and whether a complete file now exists at the target path (written by
a successful encode or a successful fallback copy). -/
structure CompressOutcome where
  result : Except PyErr Bool
  targetCreated : Bool
deriving Repr

/-- `compress`: the body's exceptions are all caught (the three `except`
clauses together cover every `Exception` and run identical handlers); the
handler attempts the fallback copy, returning `False` on success and
re-raising the copy's own error on failure. -/
def compress (env : CompressEnv) : CompressOutcome :=
  match compressBody env with
  | .ok b => { result := .ok b, targetCreated := true }
  | .error _ =>
    match copy2 env.sourceIsFile env.copyDiskOutcome with
    | .ok _ => { result := .ok false, targetCreated := true }
    | .error copyError => { result := .error copyError, targetCreated := false }

/-- C5: the effective JPEG encoding quality is `min(q, 75)` under
CompressionFirst, `max(q, 92)` under ClarityFirst, and `q` under Custom;
in particular CompressionFirst with q = 95 yields 75 and ClarityFirst with
q = 50 yields 92. -/
theorem claim_C5 :
    (∀ q : ℤ,
      saveJpegQuality q .compressionFirst = min q 75 ∧
      saveJpegQuality q .clarityFirst = max q 92 ∧
      saveJpegQuality q .custom = q) ∧
    saveJpegQuality 95 .compressionFirst = 75 ∧
    saveJpegQuality 50 .clarityFirst = 92 := by
  refine ⟨fun q => ⟨rfl, rfl, rfl⟩, ?_, ?_⟩ <;> decide

/-- C10: the effective photo quality computed by `compress` is an integer in
`[0, 100]`; a configured value that `int(...)` cannot convert yields the
lower clamp bound 0, not the documented default 85. -/
theorem claim_C10 :
    (∀ conv : Option ℤ,
      0 ≤ effectivePhotoQuality conv ∧ effectivePhotoQuality conv ≤ 100) ∧
    effectivePhotoQuality none = 0 ∧ effectivePhotoQuality none ≠ 85 := by
  refine ⟨fun conv => ⟨le_max_left 0 _, ?_⟩, by decide, by decide⟩
  exact max_le (by norm_num) (min_le_left 100 _)

/-- C4: every error raised during decode, transform, or encode is caught by
`compress`, which then attempts a verbatim copy and returns `False` rather
than raising; `compress` returns `True` on successful re-encode; it raises
to the caller only when the fallback copy itself fails (and then with the
copy's own error). -/
theorem claim_C4 (env : CompressEnv) :
    (env.normalizeSourceOk = true → env.sourceIsFile = true →
      env.normalizeTargetOk = true → env.pipeline = .ok () →
      (compress env).result = .ok true) ∧
    (∀ e : PyErr, env.pipeline = .error e →
      copy2 env.sourceIsFile env.copyDiskOutcome = .ok () →
      (compress env).result = .ok false) ∧
    (∀ e : PyErr, (compress env).result = .error e →
      copy2 env.sourceIsFile env.copyDiskOutcome = .error e) := by
  obtain ⟨ns, sf, nt, pl, cp⟩ := env
  refine ⟨?_, ?_, ?_⟩ <;>
    cases ns <;> cases sf <;> cases nt <;>
      rcases pl with ⟨⟩ | e₀ <;> rcases cp with ⟨⟩ | c₀ <;>
        simp_all [compress, compressBody, copy2]

/-- Witness for C4 at concrete environments: a clean run returns `True`, a
failed pipeline with a working copy returns `False`, and a failed pipeline
whose fallback copy also fails surfaces the copy's error. -/
theorem claim_C4_witness :
    (compress ⟨true, true, true, .ok (), .ok ()⟩).result = .ok true ∧
    (compress ⟨true, true, true, .error .osError, .ok ()⟩).result = .ok false ∧
    copy2 true (Except.error PyErr.permissionError) = .error .permissionError :=
  ⟨(claim_C4 ⟨true, true, true, .ok (), .ok ()⟩).1 rfl rfl rfl rfl,
   (claim_C4 ⟨true, true, true, .error .osError, .ok ()⟩).2.1 .osError rfl rfl,
   (claim_C4 ⟨true, true, true, .error .osError, .error .permissionError⟩).2.2
     .permissionError rfl⟩

/-- C7: when the source path is not a regular file, `compress` raises a
`FileNotFoundError` (the validation error is caught, but the fallback
`shutil.copy2` of the missing source re-raises it) and no target file is
created. -/
theorem claim_C7 (env : CompressEnv) (h : env.sourceIsFile = false) :
    (compress env).result = .error .fileNotFound ∧
    (compress env).targetCreated = false := by
  obtain ⟨ns, sf, nt, pl, cp⟩ := env
  cases sf
  · cases ns <;> cases nt <;>
      rcases pl with ⟨⟩ | e₀ <;> rcases cp with ⟨⟩ | c₀ <;>
        simp_all [compress, compressBody, copy2]
  · exact absurd h (by simp)

/-- Witness for C7 at a concrete environment with a missing source file. -/
theorem claim_C7_witness :
    (compress ⟨true, false, true, .ok (), .ok ()⟩).result = .error .fileNotFound ∧
    (compress ⟨true, false, true, .ok (), .ok ()⟩).targetCreated = false :=
  claim_C7 ⟨true, false, true, .ok (), .ok ()⟩ rfl

/-- C8: `_maybe_quantize_png` returns any image already in palette (indexed)
mode unchanged, for every requested color count and dither mode and whatever
the PIL quantization primitives would do. -/
theorem claim_C8 (ops : QuantOps) (img : Img) (colors dither : ℤ)
    (h : img.mode = .indexed) :
    maybeQuantizePng ops img colors dither = img := by
  simp [maybeQuantizePng, h]

/-- Witness for C8: a concrete one-pixel palette-mode image with failing
quantization primitives is returned unchanged. -/
theorem claim_C8_witness :
    maybeQuantizePng ⟨fun _ _ _ => none, fun _ _ _ _ => none⟩
      ⟨.indexed, 1, 1, [⟨1, 2, 3, 255⟩], true⟩ 16 0 =
      ⟨.indexed, 1, 1, [⟨1, 2, 3, 255⟩], true⟩ :=
  claim_C8 ⟨fun _ _ _ => none, fun _ _ _ _ => none⟩
    ⟨.indexed, 1, 1, [⟨1, 2, 3, 255⟩], true⟩ 16 0 rfl

lemma round_eq_floor_of_fract_lt_half {x : ℚ} (h : Int.fract x < 1/2) :
    round x = ⌊x⌋ := by
  rw [round_eq]
  have hx := Int.floor_add_fract x
  have h0 := Int.fract_nonneg x
  refine Int.floor_eq_iff.mpr ⟨?_, ?_⟩ <;> linarith

lemma round_eq_floor_add_one_of_half_lt_fract {x : ℚ} (h : 1/2 < Int.fract x) :
    round x = ⌊x⌋ + 1 := by
  rw [round_eq]
  have hx := Int.floor_add_fract x
  have h1 := Int.fract_lt_one x
  refine Int.floor_eq_iff.mpr ⟨?_, ?_⟩ <;> push_cast <;> linarith

/-- Python's banker's rounding agrees with ordinary rounding away from
exact halves. -/
lemma pyRound_eq_round {x : ℚ} (h : Int.fract x ≠ 1/2) : pyRound x = round x := by
  unfold pyRound
  rw [show x - (⌊x⌋ : ℚ) = Int.fract x from (Int.self_sub_floor x)]
  rcases lt_or_gt_of_ne h with hlt | hgt
  · rw [if_pos hlt, round_eq_floor_of_fract_lt_half hlt]
  · rw [if_neg (by linarith), if_pos hgt, round_eq_floor_add_one_of_half_lt_fract hgt]

/-- The fractional part of `16 + (q/70)*(256-16)` is a multiple of `1/7`,
never an exact half, for every integer quality `q`. -/
lemma fract_pngColors_arg_ne_half (q : ℤ) :
    Int.fract (16 + ((q : ℚ) / 70) * (256 - 16)) ≠ 1/2 := by
  intro h
  set x : ℚ := 16 + ((q : ℚ) / 70) * (256 - 16) with hx
  have hfr : x - (⌊x⌋ : ℚ) = Int.fract x := Int.self_sub_floor x
  have h14 : (14 : ℚ) * x = 224 + 48 * (q : ℚ) := by rw [hx]; ring
  have hq : (224 : ℚ) + 48 * (q : ℚ) - 14 * (⌊x⌋ : ℚ) = 7 := by
    have := h ▸ hfr
    linarith
  have hz : (224 : ℤ) + 48 * q - 14 * ⌊x⌋ = 7 := by exact_mod_cast hq
  omega

/-- The palette size computed by `_save_png` equals the spec formula
`clamp(round(16 + (q/70)*(256-16)), 16, 256)` with ordinary rounding. -/
lemma pngColors_eq_round (q : ℤ) :
    pngColors q = max 16 (min 256 (round (16 + ((q : ℚ) / 70) * (256 - 16)))) := by
  unfold pngColors
  rw [pyRound_eq_round (fract_pngColors_arg_ne_half q)]

/-- C1: under preset Custom, `_save_png` uses compress level 6 and the image
unchanged when `q >= 90`; compress level 9 and the image unchanged when
`70 <= q < 90`; and compress level 9 with a palette-quantization attempt at
`clamp(round(16 + (q/70)*(256-16)), 16, 256)` colors and no dithering when
`q < 70`. -/
theorem claim_C1 (ops : QuantOps) (img : Img) (q : ℤ) :
    (90 ≤ q → savePng ops img q .custom = (6, img)) ∧
    (70 ≤ q → q < 90 → savePng ops img q .custom = (9, img)) ∧
    (q < 70 → savePng ops img q .custom =
      (9, maybeQuantizePng ops img
        (max 16 (min 256 (round (16 + ((q : ℚ) / 70) * (256 - 16))))) ditherNONE)) := by
  refine ⟨fun h90 => ?_, fun h70 h90 => ?_, fun h70 => ?_⟩
  · simp [savePng, h90]
  · simp [savePng, h70, not_le.mpr h90]
  · rw [savePng, if_neg (by omega), if_neg (by omega), pngColors_eq_round]

/-- Witness for C1 at qualities 95, 80 and 30 on a concrete image. -/
theorem claim_C1_witness :
    savePng ⟨fun _ _ _ => none, fun _ _ _ _ => none⟩
        ⟨.rgb, 1, 1, [⟨9, 9, 9, 255⟩], false⟩ 95 .custom =
      (6, ⟨.rgb, 1, 1, [⟨9, 9, 9, 255⟩], false⟩) ∧
    savePng ⟨fun _ _ _ => none, fun _ _ _ _ => none⟩
        ⟨.rgb, 1, 1, [⟨9, 9, 9, 255⟩], false⟩ 80 .custom =
      (9, ⟨.rgb, 1, 1, [⟨9, 9, 9, 255⟩], false⟩) ∧
    savePng ⟨fun _ _ _ => none, fun _ _ _ _ => none⟩
        ⟨.rgb, 1, 1, [⟨9, 9, 9, 255⟩], false⟩ 30 .custom =
      (9, maybeQuantizePng ⟨fun _ _ _ => none, fun _ _ _ _ => none⟩
        ⟨.rgb, 1, 1, [⟨9, 9, 9, 255⟩], false⟩
        (max 16 (min 256 (round (16 + ((30 : ℚ) / 70) * (256 - 16))))) ditherNONE) :=
  ⟨(claim_C1 ⟨fun _ _ _ => none, fun _ _ _ _ => none⟩
      ⟨.rgb, 1, 1, [⟨9, 9, 9, 255⟩], false⟩ 95).1 (by norm_num),
   (claim_C1 ⟨fun _ _ _ => none, fun _ _ _ _ => none⟩
      ⟨.rgb, 1, 1, [⟨9, 9, 9, 255⟩], false⟩ 80).2.1 (by norm_num) (by norm_num),
   (claim_C1 ⟨fun _ _ _ => none, fun _ _ _ _ => none⟩
      ⟨.rgb, 1, 1, [⟨9, 9, 9, 255⟩], false⟩ 30).2.2 (by norm_num)⟩

/-- C3: if the image already fits within `(maxWidth, maxHeight)` the resize
step returns it unchanged; otherwise it hands the image to the resampler at
`newWidth = floor(width*ratio)`, `newHeight = floor(height*ratio)` with
`ratio = min(maxWidth/width, maxHeight/height)`, and those dimensions never
exceed either bound. -/
theorem claim_C3 (resample : Img → ℤ → ℤ → Img) (img : Img) (maxW maxH : ℤ)
    (hw : 0 < img.width) (hh : 0 < img.height)
    (hmw : 0 ≤ maxW) (hmh : 0 ≤ maxH) :
    (img.width ≤ maxW ∧ img.height ≤ maxH →
      resizeIfNeeded resample img maxW maxH = img) ∧
    (¬ (img.width ≤ maxW ∧ img.height ≤ maxH) →
      resizeIfNeeded resample img maxW maxH =
        resample img
          (⌊(img.width : ℚ) *
            min ((maxW : ℚ) / (img.width : ℚ)) ((maxH : ℚ) / (img.height : ℚ))⌋)
          (⌊(img.height : ℚ) *
            min ((maxW : ℚ) / (img.width : ℚ)) ((maxH : ℚ) / (img.height : ℚ))⌋) ∧
      ⌊(img.width : ℚ) *
        min ((maxW : ℚ) / (img.width : ℚ)) ((maxH : ℚ) / (img.height : ℚ))⌋ ≤ maxW ∧
      ⌊(img.height : ℚ) *
        min ((maxW : ℚ) / (img.width : ℚ)) ((maxH : ℚ) / (img.height : ℚ))⌋ ≤ maxH) := by
  have hwq : (0 : ℚ) < (img.width : ℚ) := by exact_mod_cast hw
  have hhq : (0 : ℚ) < (img.height : ℚ) := by exact_mod_cast hh
  have hmwq : (0 : ℚ) ≤ (maxW : ℚ) := by exact_mod_cast hmw
  have hmhq : (0 : ℚ) ≤ (maxH : ℚ) := by exact_mod_cast hmh
  have hratio : (0 : ℚ) ≤
      min ((maxW : ℚ) / (img.width : ℚ)) ((maxH : ℚ) / (img.height : ℚ)) :=
    le_min (div_nonneg hmwq hwq.le) (div_nonneg hmhq hhq.le)
  have hwbound : (img.width : ℚ) *
      min ((maxW : ℚ) / (img.width : ℚ)) ((maxH : ℚ) / (img.height : ℚ)) ≤ (maxW : ℚ) := by
    calc (img.width : ℚ) *
        min ((maxW : ℚ) / (img.width : ℚ)) ((maxH : ℚ) / (img.height : ℚ)) ≤
        (img.width : ℚ) * ((maxW : ℚ) / (img.width : ℚ)) :=
          mul_le_mul_of_nonneg_left (min_le_left _ _) hwq.le
      _ = (maxW : ℚ) := by field_simp
  have hhbound : (img.height : ℚ) *
      min ((maxW : ℚ) / (img.width : ℚ)) ((maxH : ℚ) / (img.height : ℚ)) ≤ (maxH : ℚ) := by
    calc (img.height : ℚ) *
        min ((maxW : ℚ) / (img.width : ℚ)) ((maxH : ℚ) / (img.height : ℚ)) ≤
        (img.height : ℚ) * ((maxH : ℚ) / (img.height : ℚ)) :=
          mul_le_mul_of_nonneg_left (min_le_right _ _) hhq.le
      _ = (maxH : ℚ) := by field_simp
  constructor
  · intro ⟨h1, h2⟩
    unfold resizeIfNeeded
    rw [if_neg (by push_neg; exact ⟨h1, h2⟩)]
  · intro hnot
    have hcond : maxW < img.width ∨ maxH < img.height := by
      rcases not_and_or.mp hnot with h | h
      · exact Or.inl (not_le.mp h)
      · exact Or.inr (not_le.mp h)
    unfold resizeIfNeeded resizeDims
    rw [if_pos hcond]
    have hpw : ¬ ((img.width : ℚ) *
        min ((maxW : ℚ) / (img.width : ℚ)) ((maxH : ℚ) / (img.height : ℚ)) < 0) :=
      not_lt.mpr (mul_nonneg hwq.le hratio)
    have hph : ¬ ((img.height : ℚ) *
        min ((maxW : ℚ) / (img.width : ℚ)) ((maxH : ℚ) / (img.height : ℚ)) < 0) :=
      not_lt.mpr (mul_nonneg hhq.le hratio)
    refine ⟨by simp only [pyInt, if_neg hpw, if_neg hph], ?_, ?_⟩
    · exact le_trans (Int.floor_le_floor hwbound) (le_of_eq (Int.floor_intCast maxW))
    · exact le_trans (Int.floor_le_floor hhbound) (le_of_eq (Int.floor_intCast maxH))

/-- Witness for C3: a 4×2 image with bounds 2×2 is handed to the resampler
at 2×1, and a 4×2 image with bounds 4×2 is returned unchanged. -/
theorem claim_C3_witness :
    resizeIfNeeded (fun i nw nh => { i with width := nw, height := nh })
      ⟨.rgb, 4, 2, [], false⟩ 2 2 = ⟨.rgb, 2, 1, [], false⟩ ∧
    resizeIfNeeded (fun i nw nh => { i with width := nw, height := nh })
      ⟨.rgb, 4, 2, [], false⟩ 4 2 = ⟨.rgb, 4, 2, [], false⟩ := by
  constructor
  · have h := (claim_C3 (fun i nw nh => { i with width := nw, height := nh })
      ⟨.rgb, 4, 2, [], false⟩ 2 2 (by norm_num) (by norm_num) (by norm_num)
      (by norm_num)).2 (by norm_num)
    rw [h.1]
    norm_num [Img.mk.injEq, min_def]
  · exact (claim_C3 (fun i nw nh => { i with width := nw, height := nh })
      ⟨.rgb, 4, 2, [], false⟩ 4 2 (by norm_num) (by norm_num) (by norm_num)
      (by norm_num)).1 (by norm_num)

lemma foldl_min_le_init (l : List ℕ) (a : ℕ) : l.foldl min a ≤ a := by
  induction l generalizing a with
  | nil => exact le_refl a
  | cons x xs ih => exact le_trans (ih (min a x)) (min_le_left a x)

lemma foldl_min_le_mem {l : List ℕ} {x : ℕ} (hx : x ∈ l) (a : ℕ) :
    l.foldl min a ≤ x := by
  induction l generalizing a with
  | nil => cases hx
  | cons y ys ih =>
    rcases List.mem_cons.mp hx with rfl | hmem
    · exact le_trans (foldl_min_le_init ys (min a x)) (min_le_right a x)
    · exact ih hmem (min a y)

lemma init_le_foldl_max (l : List ℕ) (a : ℕ) : a ≤ l.foldl max a := by
  induction l generalizing a with
  | nil => exact le_refl a
  | cons x xs ih => exact le_trans (le_max_left a x) (ih (max a x))

lemma mem_le_foldl_max {l : List ℕ} {x : ℕ} (hx : x ∈ l) (a : ℕ) :
    x ≤ l.foldl max a := by
  induction l generalizing a with
  | nil => cases hx
  | cons y ys ih =>
    rcases List.mem_cons.mp hx with rfl | hmem
    · exact le_trans (le_max_right a x) (init_le_foldl_max ys (max a x))
    · exact ih hmem (max a y)

lemma foldl_min_const {l : List ℕ} {c : ℕ} (h : ∀ x ∈ l, x = c) :
    l.foldl min c = c := by
  induction l with
  | nil => rfl
  | cons x xs ih =>
    have hx : x = c := h x (List.mem_cons_self x xs)
    subst hx
    rw [List.foldl_cons, min_self]
    exact ih fun y hy => h y (List.mem_cons_of_mem x hy)

lemma foldl_max_const {l : List ℕ} {c : ℕ} (h : ∀ x ∈ l, x = c) :
    l.foldl max c = c := by
  induction l with
  | nil => rfl
  | cons x xs ih =>
    have hx : x = c := h x (List.mem_cons_self x xs)
    subst hx
    rw [List.foldl_cons, max_self]
    exact ih fun y hy => h y (List.mem_cons_of_mem x hy)

lemma alphaExtrema_all_const {l : List ℕ} {c : ℕ} (hne : l ≠ [])
    (h : ∀ x ∈ l, x = c) : alphaExtrema l = some (c, c) := by
  cases l with
  | nil => exact absurd rfl hne
  | cons x xs =>
    have hx : x = c := h x (List.mem_cons_self x xs)
    have ht : ∀ y ∈ xs, y = c := fun y hy => h y (List.mem_cons_of_mem x hy)
    simp [alphaExtrema, hx, foldl_min_const ht, foldl_max_const ht]

lemma alphaExtrema_bounds {l : List ℕ} {mn mx : ℕ}
    (h : alphaExtrema l = some (mn, mx)) : ∀ x ∈ l, mn ≤ x ∧ x ≤ mx := by
  cases l with
  | nil => cases h
  | cons y ys =>
    simp only [alphaExtrema, Option.some.injEq, Prod.mk.injEq] at h
    obtain ⟨hmn, hmx⟩ := h
    intro x hx
    rcases List.mem_cons.mp hx with rfl | hmem
    · exact ⟨hmn ▸ foldl_min_le_init ys x, hmx ▸ init_le_foldl_max ys x⟩
    · exact ⟨hmn ▸ foldl_min_le_mem hmem y, hmx ▸ mem_le_foldl_max hmem y⟩

lemma modeHasAlpha_of_requires {img : Img} (h : requiresAlphaHandling img = true) :
    modeHasAlpha img = true := by
  unfold requiresAlphaHandling at h
  unfold modeHasAlpha
  simp only [Bool.or_eq_true, Bool.and_eq_true, decide_eq_true_eq] at h ⊢
  tauto

lemma convertRGBA_of_modeHasAlpha {img : Img} (h : modeHasAlpha img = true) :
    convertRGBA img = { img with mode := .rgba } := by
  unfold convertRGBA
  rw [if_pos h]

/-- C6: the PNG-24 flatten conversion leaves a true-RGB image unchanged;
an image with transparency whose alpha channel is uniformly 255 becomes a
direct RGB conversion keeping the original RGB channels; one whose alpha is
not uniformly opaque is composited over opaque white and dropped to RGB; in
particular an RGBA image with alpha uniformly 0 becomes solid white RGB. -/
theorem claim_C6 (img : Img) :
    (img.mode = .rgb → convertForPng24 img = img) ∧
    (requiresAlphaHandling img = true → img.mode ≠ .rgb → img.pixels ≠ [] →
      (∀ p ∈ img.pixels, p.a = 255) →
      convertForPng24 img =
        { img with
          mode := .rgb
          pixels := img.pixels.map (fun p => { p with a := 255 }) }) ∧
    (requiresAlphaHandling img = true → img.mode ≠ .rgb → img.pixels ≠ [] →
      (∃ p ∈ img.pixels, p.a ≠ 255) →
      convertForPng24 img =
        { img with
          mode := .rgb
          pixels := img.pixels.map alphaCompositeWhite }) ∧
    (img.mode = .rgba → img.pixels ≠ [] → (∀ p ∈ img.pixels, p.a = 0) →
      convertForPng24 img =
        { img with
          mode := .rgb
          pixels := img.pixels.map (fun _ => ⟨255, 255, 255, 255⟩) }) := by
  have hcompose : ∀ (i : Img), requiresAlphaHandling i = true → i.mode ≠ .rgb →
      i.pixels ≠ [] → (∃ p ∈ i.pixels, p.a ≠ 255) →
      convertForPng24 i =
        { i with mode := .rgb, pixels := i.pixels.map alphaCompositeWhite } := by
    intro i hreq hmode hne hex
    have hma := modeHasAlpha_of_requires hreq
    have hrgba := convertRGBA_of_modeHasAlpha hma
    obtain ⟨p0, hp0, hp0a⟩ := hex
    have hmapne : i.pixels.map Pixel.a ≠ [] := by
      simpa using hne
    obtain ⟨mn, mx, hext⟩ : ∃ mn mx,
        alphaExtrema (i.pixels.map Pixel.a) = some (mn, mx) := by
      cases hl : i.pixels.map Pixel.a with
      | nil => exact absurd hl hmapne
      | cons y ys => exact ⟨ys.foldl min y, ys.foldl max y, by simp [alphaExtrema]⟩
    have hnotboth : ¬ (mn = 255 ∧ mx = 255) := by
      rintro ⟨rfl, rfl⟩
      have hb := alphaExtrema_bounds hext p0.a (List.mem_map_of_mem Pixel.a hp0)
      omega
    simp only [convertForPng24, if_neg hmode, hreq, if_true, hrgba, hext]
    rw [if_neg hnotboth]
    simp only [convertRGB, List.map_map]
    rfl
  refine ⟨fun h => ?_, fun hreq hmode hne hall => ?_, hcompose img, ?_⟩
  · simp [convertForPng24, h]
  · have hma := modeHasAlpha_of_requires hreq
    have hrgba := convertRGBA_of_modeHasAlpha hma
    have hext : alphaExtrema (img.pixels.map Pixel.a) = some (255, 255) := by
      refine alphaExtrema_all_const (by simpa using hne) ?_
      intro x hx
      obtain ⟨p, hp, rfl⟩ := List.mem_map.mp hx
      exact hall p hp
    simp only [convertForPng24, if_neg hmode, hreq, if_true, hrgba, hext]
    rw [if_pos (by simp)]
    rfl
  · intro hmode hne hzero
    have hreq : requiresAlphaHandling img = true := by
      simp [requiresAlphaHandling, hmode]
    have hmode' : img.mode ≠ .rgb := by rw [hmode]; exact fun h => Mode.noConfusion h
    obtain ⟨q0, hq0⟩ : ∃ q, q ∈ img.pixels := by
      cases hl : img.pixels with
      | nil => exact absurd hl hne
      | cons y ys => exact ⟨y, by simp [hl]⟩
    have hex : ∃ p ∈ img.pixels, p.a ≠ 255 := by
      refine ⟨q0, hq0, ?_⟩
      rw [hzero q0 hq0]
      omega
    rw [hcompose img hreq hmode' hne hex]
    congr 1
    refine List.map_congr_left ?_
    intro p hp
    have hpa := hzero p hp
    simp [alphaCompositeWhite, hpa]

/-- Witness for C6 on concrete one-pixel images: an RGB image unchanged, an
opaque RGBA image dropped to RGB, a half-transparent RGBA pixel blended over
white, and a fully transparent RGBA pixel turned solid white. -/
theorem claim_C6_witness :
    convertForPng24 ⟨.rgb, 1, 1, [⟨1, 2, 3, 255⟩], false⟩ =
      ⟨.rgb, 1, 1, [⟨1, 2, 3, 255⟩], false⟩ ∧
    convertForPng24 ⟨.rgba, 1, 1, [⟨10, 20, 30, 255⟩], false⟩ =
      ⟨.rgb, 1, 1, [⟨10, 20, 30, 255⟩], false⟩ ∧
    convertForPng24 ⟨.rgba, 1, 1, [⟨10, 20, 30, 128⟩], false⟩ =
      ⟨.rgb, 1, 1, [⟨132, 137, 142, 255⟩], false⟩ ∧
    convertForPng24 ⟨.rgba, 1, 1, [⟨10, 20, 30, 0⟩], false⟩ =
      ⟨.rgb, 1, 1, [⟨255, 255, 255, 255⟩], false⟩ := by
  refine ⟨(claim_C6 ⟨.rgb, 1, 1, [⟨1, 2, 3, 255⟩], false⟩).1 rfl, ?_, ?_, ?_⟩
  · rw [(claim_C6 ⟨.rgba, 1, 1, [⟨10, 20, 30, 255⟩], false⟩).2.1
      (by decide) (by decide) (by decide) (by decide)]
    decide
  · rw [(claim_C6 ⟨.rgba, 1, 1, [⟨10, 20, 30, 128⟩], false⟩).2.2.1
      (by decide) (by decide) (by decide) (by decide)]
    decide
  · rw [(claim_C6 ⟨.rgba, 1, 1, [⟨10, 20, 30, 0⟩], false⟩).2.2.2
      rfl (by decide) (by decide)]
    decide

lemma pixelAbsDiffSum_self (p : Pixel) : pixelAbsDiffSum p p = 0 := by
  simp [pixelAbsDiffSum]

lemma pixelHighDiff_self (p : Pixel) : pixelHighDiff p p = false := by
  simp [pixelHighDiff]

lemma zipSelf_absSum (l : List Pixel) :
    ((l.zip l).map fun pr => pixelAbsDiffSum pr.1 pr.2).sum = 0 := by
  induction l with
  | nil => rfl
  | cons x xs ih => simp [List.zip_cons_cons, pixelAbsDiffSum_self, ih]

lemma zipSelf_highCount (l : List Pixel) :
    (l.zip l).countP (fun pr => pixelHighDiff pr.1 pr.2) = 0 := by
  induction l with
  | nil => rfl
  | cons x xs ih => simp [List.zip_cons_cons, List.countP_cons, pixelHighDiff_self, ih]

/-- `_compute_image_diff_stats` of any pixel list against itself is
`(0.0, 0.0)`. -/
lemma computeImageDiffStats_self (l : List Pixel) :
    computeImageDiffStats l l = (0, 0) := by
  unfold computeImageDiffStats
  rcases eq_or_ne l.length 0 with h | h
  · simp [h]
  · rw [min_self, if_neg h]
    simp [zipSelf_absSum, zipSelf_highCount]

/-- `_prepare_compare_images` applied to one image against itself returns an
equal pair whenever it does not raise. -/
lemma prepare_self_eq (rN rB : Img → ℤ → ℤ → Option Img) (x : Img) {pa pb : Img}
    (h : prepareCompareImages rN rB x x = some (pa, pb)) : pa = pb := by
  simp only [prepareCompareImages, ne_eq, not_true_eq_false, if_false, ite_not,
    Option.pure_def, Option.bind_eq_bind, Option.some_bind] at h
  set t := if x.mode = Mode.rgba then x else convertRGBA x with ht
  by_cases hbig : 256 < t.width ∨ 256 < t.height
  · rw [if_pos hbig] at h
    cases o : rB t (max 1 (pyInt ((t.width : ℚ) *
        min (256 / (t.width : ℚ)) (256 / (t.height : ℚ)))))
      (max 1 (pyInt ((t.height : ℚ) *
        min (256 / (t.width : ℚ)) (256 / (t.height : ℚ))))) with
    | none => rw [o] at h; simp at h
    | some y =>
      rw [o] at h
      simp only [Option.some_bind] at h
      obtain ⟨h1, h2⟩ := Prod.mk.injEq .. ▸ Option.some.injEq .. ▸ h
      exact h1.symm.trans h2
  · rw [if_neg hbig] at h
    obtain ⟨h1, h2⟩ := Prod.mk.injEq .. ▸ Option.some.injEq .. ▸ h
    exact h1.symm.trans h2

/-- The acceptance flag is set exactly when `mae <= 6.0` and
`high_pct <= 2.0`. -/
lemma acceptFlag_iff (mae hp : ℚ) : acceptFlag mae hp = true ↔ mae ≤ 6 ∧ hp ≤ 2 := by
  by_cases h1 : 6 < mae <;> by_cases h2 : 2 < hp
  · simp [acceptFlag, h1, h2, not_le.mpr h1]
  · simp [acceptFlag, h1, h2, not_le.mpr h1]
  · simp [acceptFlag, h1, h2, not_le.mpr h2]
  · simp [acceptFlag, h1, h2, not_lt.mp h1, not_lt.mp h2]

/-- C2: the quantization-acceptance decision accepts exactly when the
computed mean absolute error is `<= 6.0` and the high-difference pixel
percentage is `<= 2.0`; if an exception occurs during the comparison the
decision is `accept = false` with sentinels `mae = 999.0`,
`high_pct = 100.0`. -/
theorem claim_C2 (rN rB : Img → ℤ → ℤ → Option Img) (originalImg png8Img : Img) :
    (∀ pa pb, prepareCompareImages rN rB originalImg png8Img = some (pa, pb) →
      ((shouldAcceptPng8 rN rB originalImg png8Img).accept = true ↔
        (computeImageDiffStats pa.pixels pb.pixels).1 ≤ 6 ∧
        (computeImageDiffStats pa.pixels pb.pixels).2 ≤ 2)) ∧
    (prepareCompareImages rN rB originalImg png8Img = none →
      shouldAcceptPng8 rN rB originalImg png8Img =
        { accept := false, mae := 999, highPct := 100 }) := by
  constructor
  · intro pa pb h
    simp only [shouldAcceptPng8, h]
    exact acceptFlag_iff _ _
  · intro h
    simp only [shouldAcceptPng8, h]

/-- Witness for C2: identical one-pixel images are accepted, and failing
resamplers produce the sentinel verdict. -/
theorem claim_C2_witness :
    (shouldAcceptPng8 (fun i _ _ => some i) (fun i _ _ => some i)
      ⟨.rgba, 1, 1, [⟨0, 0, 0, 255⟩], false⟩
      ⟨.rgba, 1, 1, [⟨0, 0, 0, 255⟩], false⟩).accept = true ∧
    shouldAcceptPng8 (fun _ _ _ => none) (fun _ _ _ => none)
      ⟨.rgba, 1, 1, [⟨0, 0, 0, 255⟩], false⟩
      ⟨.rgba, 2, 1, [⟨0, 0, 0, 255⟩, ⟨0, 0, 0, 255⟩], false⟩ =
      { accept := false, mae := 999, highPct := 100 } := by
  constructor
  · exact ((claim_C2 (fun i _ _ => some i) (fun i _ _ => some i)
      ⟨.rgba, 1, 1, [⟨0, 0, 0, 255⟩], false⟩
      ⟨.rgba, 1, 1, [⟨0, 0, 0, 255⟩], false⟩).1
      ⟨.rgba, 1, 1, [⟨0, 0, 0, 255⟩], false⟩
      ⟨.rgba, 1, 1, [⟨0, 0, 0, 255⟩], false⟩ rfl).mpr
      (by simp [computeImageDiffStats_self])
  · exact (claim_C2 (fun _ _ _ => none) (fun _ _ _ => none)
      ⟨.rgba, 1, 1, [⟨0, 0, 0, 255⟩], false⟩
      ⟨.rgba, 2, 1, [⟨0, 0, 0, 255⟩, ⟨0, 0, 0, 255⟩], false⟩).2 rfl

/-- C9: the diff-stats computation of an RGBA image against itself yields
`mae = 0.0` and `high_pct = 0.0`, and (whenever the comparison does not
raise) the acceptance decision on that pair is `accept = true`. -/
theorem claim_C9 (rN rB : Img → ℤ → ℤ → Option Img) (img : Img)
    (_hmode : img.mode = .rgba) (pa pb : Img)
    (hprep : prepareCompareImages rN rB img img = some (pa, pb)) :
    computeImageDiffStats img.pixels img.pixels = (0, 0) ∧
    (shouldAcceptPng8 rN rB img img).accept = true := by
  refine ⟨computeImageDiffStats_self _, ?_⟩
  have hpp := prepare_self_eq rN rB img hprep
  subst hpp
  simp only [shouldAcceptPng8, hprep]
  rw [computeImageDiffStats_self]
  norm_num [acceptFlag]

/-- Witness for C9 on a concrete one-pixel RGBA image with identity
resamplers. -/
theorem claim_C9_witness :
    computeImageDiffStats
        (⟨.rgba, 1, 1, [⟨5, 6, 7, 200⟩], false⟩ : Img).pixels
        (⟨.rgba, 1, 1, [⟨5, 6, 7, 200⟩], false⟩ : Img).pixels = (0, 0) ∧
    (shouldAcceptPng8 (fun i _ _ => some i) (fun i _ _ => some i)
      ⟨.rgba, 1, 1, [⟨5, 6, 7, 200⟩], false⟩
      ⟨.rgba, 1, 1, [⟨5, 6, 7, 200⟩], false⟩).accept = true :=
  claim_C9 (fun i _ _ => some i) (fun i _ _ => some i)
    ⟨.rgba, 1, 1, [⟨5, 6, 7, 200⟩], false⟩ rfl
    ⟨.rgba, 1, 1, [⟨5, 6, 7, 200⟩], false⟩
    ⟨.rgba, 1, 1, [⟨5, 6, 7, 200⟩], false⟩ rfl

end ImageCompressor
